import Mathlib

/-!
Verification development for the `mpn-compare-tool` repository.

The repository's core is `EOL/replacement_search.py` (iterative relaxation
search for replacement parts) and `EOL/rank_params.py` (parameter ranking
with an LLM oracle).  Below we give a shallow embedding of those two modules
as executable Lean definitions and prove the spec's testable properties
about them.

Modelling conventions:
* Python `Optional[str]` values become `Option String`; an absent dictionary
  key is `none`.
* Python truthiness of a string value (`if s:`) is `truthy_str`.
* External collaborators (the Digi-Key attribute extractor, the OAuth token
  helper, the HTTP request function and the external product normalizer from
  `API.digikey`) are not part of the repository's sources; they are passed in
  as oracle function arguments, mirroring their call sites exactly.
* A failed HTTP request, a non-JSON response and a response without a product
  list are all treated identically by the source (empty product list), so the
  request oracle directly returns the extracted product list.
* The source mutates dictionaries in place; the embedding passes the updated
  records explicitly.
-/

/-! ## String helpers (Python `str.strip`, `str.lower`, `str.upper`, `in`) -/

/-- Characters stripped by Python `str.strip()` (ASCII whitespace; the
repository only ever strips ASCII part numbers and parameter texts). -/
def py_is_space (c : Char) : Bool :=
  c = ' ' || c = '\t' || c = '\n' || c = '\r' || c = '\x0b' || c = '\x0c'

/-- Python `s.strip()`. -/
def py_strip (s : String) : String :=
  ⟨((s.data.dropWhile py_is_space).reverse.dropWhile py_is_space).reverse⟩

/-- Python `s.lower()` (ASCII case folding; placeholder tokens are ASCII). -/
def py_lower (s : String) : String := ⟨s.data.map Char.toLower⟩

/-- Python `s.upper()` (ASCII case folding). -/
def py_upper (s : String) : String := ⟨s.data.map Char.toUpper⟩

/-- Python `needle in hay` on strings (substring test). -/
def str_contains (hay needle : String) : Bool :=
  hay.data.tails.any (fun t => needle.data.isPrefixOf t)

/-- ASCII alphanumeric test, i.e. the regex class `[A-Za-z0-9]`. -/
def is_ascii_alnum (c : Char) : Bool :=
  ('A' ≤ c && c ≤ 'Z') || ('a' ≤ c && c ≤ 'z') || ('0' ≤ c && c ≤ '9')

/-- Python truthiness of an optional string: `None` and `""` are falsy. -/
def truthy_str : Option String → Bool
  | none => false
  | some s => s ≠ ""

/-- Python `str(x)` applied to an optional string (`str(None) = "None"`). -/
def str_of_opt : Option String → String
  | none => "None"
  | some s => s

/-! ## `EOL/replacement_search.py` helpers -/

/-- The placeholder set `_PLACEHOLDER` from `replacement_search.py`. -/
def placeholder_set : List String := ["", "-", "—", "n/a", "na", "none", "null"]

/-- `_is_placeholder`: `None`, or a string whose stripped lowercase form is a
placeholder token. -/
def is_placeholder : Option String → Bool
  | none => true
  | some v => placeholder_set.contains (py_lower (py_strip v))

/-- `_norm_mpn`: uppercase and keep only `[A-Za-z0-9]`. -/
def norm_mpn (s : Option String) : String :=
  ⟨((s.getD "").data.map Char.toUpper).filter is_ascii_alnum⟩

/-- Maximal digit runs of a character list (helper for `_base_tokens`,
mirrors `re.findall(r"\d{3,}", s)` before the length cut). -/
def digit_runs_aux : List Char → List Char → List String
  | [], acc => if acc = [] then [] else [⟨acc.reverse⟩]
  | c :: rest, acc =>
    if c.isDigit then digit_runs_aux rest (c :: acc)
    else (if acc = [] then [] else [⟨acc.reverse⟩]) ++ digit_runs_aux rest []

/-- All maximal digit runs of a string. -/
def digit_runs (s : String) : List String := digit_runs_aux s.data []

/-- `re.match(r"\d{3,}", s)`: the leading digit run, when it has length ≥ 3. -/
def leading_digit_run (s : String) : Option String :=
  let run := s.data.takeWhile Char.isDigit
  if 3 ≤ run.length then some ⟨run⟩ else none

/-- Sort key order of `_base_tokens`: longer tokens first, then lexicographic. -/
def tok_le (a b : String) : Bool :=
  b.length < a.length || (a.length = b.length && a ≤ b)

/-- Stable insertion into a sorted list. -/
def sorted_insert (le : String → String → Bool) (x : String) :
    List String → List String
  | [] => [x]
  | y :: ys => if le x y then x :: y :: ys else y :: sorted_insert le x ys

/-- Python `sorted` with a total preorder (stable insertion sort). -/
def py_sorted (le : String → String → Bool) (l : List String) : List String :=
  l.foldr (sorted_insert le) []

/-- `_base_tokens`: normalized digit runs of length ≥ 3 (plus the leading run,
which is already among them), deduplicated and sorted longest-first. -/
def base_tokens (original_mpn : String) : List String :=
  let s := norm_mpn (some original_mpn)
  let tokset := ((digit_runs s).filter (fun t => 3 ≤ t.length)).dedup
  let tokset :=
    match leading_digit_run s with
    | some t => if tokset.contains t then tokset else tokset ++ [t]
    | none => tokset
  py_sorted tok_le tokset

/-- The `contains_base` closure from `find_replacements_for_mpn`:
`any(tok and tok in subj_norm for tok in base_tokens_for_filter)`. -/
def contains_base (toks : List String) (subj_norm : String) : Bool :=
  toks.any (fun tok => tok ≠ "" && str_contains subj_norm tok)

/-! ## Ranked parameter rows and `_values_from_ranked` -/

/-- One row of `ranked_parameters` as consumed by `_values_from_ranked`.
The alternate key casings (`ValueId`/`ValueID`, `ParameterId`/`Id`) that the
source reads through `or`-chains are collapsed into the single canonical
field; identifiers are carried as their string form (`str()` is applied
by the source before storing them). -/
structure RankedParam where
  id : Option String := none
  name : Option String := none
  value : Option String := none
  value_id : Option String := none
deriving DecidableEq, Repr

/-- One element of the `triples` list built by `_values_from_ranked`:
`{"name", "value", "id", "value_id"}`. -/
structure Triple where
  name : String
  value : String
  id : Option String := none
  value_id : Option String := none
deriving DecidableEq, Repr

/-- `_values_from_ranked`: keep name/value rows, substituting the name for a
placeholder value, dropping rows whose name is empty or whose (substituted)
value is still a placeholder. -/
def values_from_ranked (ranked : List RankedParam) : List Triple :=
  ranked.filterMap fun p =>
    let name := py_strip (p.name.getD "")
    let val_text := py_strip (p.value.getD "")
    let val_text := if is_placeholder (some val_text) then name else val_text
    let val_id := p.value_id.bind fun s => if s = "" then none else some s
    let pid := p.id.bind fun s => if s = "" then none else some s
    if name = "" || is_placeholder (some val_text) then none
    else some { name := name, value := val_text, id := pid, value_id := val_id }

/-! ## Digi-Key query payloads and `_search_dk_with_filters` -/

/-- One parameter filter object inside a query payload.  The four
constructors record the four JSON shapes the source emits. -/
inductive FilterEntry where
  | pidVid (parameterId valueId : String)
  | pidVtext (parameterId valueText : String)
  | pidVal (parameterId value : String)
  | ptextVtext (parameterText valueText : String)
deriving DecidableEq, Repr

/-- A request body for the keyword-search endpoint.  `filters` models the
`Filters.ParameterFilters` key, `parameterValueFilters` the top-level
`ParameterValueFilters` key; `none` means the key is absent. -/
structure Body where
  keywords : String
  recordCount : Nat
  filters : Option (List FilterEntry) := none
  parameterValueFilters : Option (List FilterEntry) := none
deriving DecidableEq, Repr

/-- Tier 1 filter list: `ParameterId` + `ValueId`, for triples carrying both. -/
def tier_id_valId (triples : List Triple) : List FilterEntry :=
  triples.filterMap fun t =>
    if truthy_str t.id && truthy_str t.value_id then
      some (.pidVid (t.id.getD "") (t.value_id.getD "")) else none

/-- Tier 2 filter list: `ParameterId` + `ValueText`. -/
def tier_id_valTxt (triples : List Triple) : List FilterEntry :=
  triples.filterMap fun t =>
    if truthy_str t.id && t.value ≠ "" then
      some (.pidVtext (t.id.getD "") t.value) else none

/-- Tier 3 filter list: `ParameterId` + `Value`. -/
def tier_id_val (triples : List Triple) : List FilterEntry :=
  triples.filterMap fun t =>
    if truthy_str t.id && t.value ≠ "" then
      some (.pidVal (t.id.getD "") t.value) else none

/-- Tier 4 filter list: `ParameterText` + `ValueText`. -/
def tier_txt_val (triples : List Triple) : List FilterEntry :=
  triples.filterMap fun t =>
    if t.name ≠ "" && t.value ≠ "" then
      some (.ptextVtext t.name t.value) else none

/-- The ordered candidate payload list built by `_search_dk_with_filters`:
each tier is appended only when its filter list is non-empty. -/
def search_dk_candidates (base_keywords : String) (triples : List Triple)
    (record_count : Nat) : List Body :=
  (if tier_id_valId triples ≠ [] then
    [{ keywords := base_keywords, recordCount := record_count,
       filters := some (tier_id_valId triples) }] else []) ++
  (if tier_id_valTxt triples ≠ [] then
    [{ keywords := base_keywords, recordCount := record_count,
       filters := some (tier_id_valTxt triples) }] else []) ++
  (if tier_id_val triples ≠ [] then
    [{ keywords := base_keywords, recordCount := record_count,
       parameterValueFilters := some (tier_id_val triples) }] else []) ++
  (if tier_txt_val triples ≠ [] then
    [{ keywords := base_keywords, recordCount := record_count,
       filters := some (tier_txt_val triples) }] else [])

/-- The request loop of `_search_dk_with_filters`: post each candidate body in
order, returning the first non-empty product list.  `req` is the transport
oracle (`_dk_request` + JSON decoding + `_extract_products` composed; a failed
request is an empty list). -/
def first_nonempty_response {Raw : Type} (req : Body → List Raw) :
    List Body → List Raw
  | [] => []
  | b :: rest =>
    let prods := req b
    if prods.isEmpty then first_nonempty_response req rest else prods

/-- `_search_dk_with_filters` (debug printing omitted). -/
def search_dk_with_filters {Raw : Type} (req : Body → List Raw)
    (base_keywords : String) (triples : List Triple)
    (record_count : Nat := 50) : List Raw :=
  first_nonempty_response req (search_dk_candidates base_keywords triples record_count)

/-! ## `_keywords_from_values` and `_keyword_fallback` -/

/-- Collapse whitespace runs to a single space (`re.sub(r"\s+", " ", t)`). -/
def collapse_ws_aux : List Char → Bool → List Char
  | [], _ => []
  | c :: rest, inRun =>
    if py_is_space c then
      if inRun then collapse_ws_aux rest true else ' ' :: collapse_ws_aux rest true
    else c :: collapse_ws_aux rest false

/-- `re.sub(r"\s+", " ", t)`. -/
def collapse_ws (s : String) : String := ⟨collapse_ws_aux s.data false⟩

/-- The token-collecting loop of `_keywords_from_values` (append the
whitespace-compacted value, stop once `max_tokens` tokens are collected). -/
def kw_tokens_aux (max_tokens : Nat) : List Triple → List String → List String
  | [], acc => acc.reverse
  | v :: rest, acc =>
    let t := py_strip v.value
    if t = "" then kw_tokens_aux max_tokens rest acc
    else
      let acc := collapse_ws t :: acc
      if max_tokens ≤ acc.length then acc.reverse
      else kw_tokens_aux max_tokens rest acc

/-- `_keywords_from_values`. -/
def keywords_from_values (base_kw : String) (values : List Triple)
    (max_tokens : Nat := 3) : String :=
  let tokens := kw_tokens_aux max_tokens values []
  if base_kw ≠ "" then String.intercalate " " (base_kw :: tokens)
  else String.intercalate " " tokens

/-- The attempt loop of `_keyword_fallback`: skip blank or already-seen
keyword strings (case-insensitively), post the rest in order, return the first
non-empty product list. -/
def kw_fallback_loop {Raw : Type} (req : Body → List Raw) (record_count : Nat) :
    List String → List String → List Raw
  | [], _ => []
  | kw :: rest, seen =>
    let kw := py_strip kw
    if kw = "" || seen.contains (py_lower kw) then
      kw_fallback_loop req record_count rest seen
    else
      let prods := req { keywords := kw, recordCount := record_count }
      if prods.isEmpty then
        kw_fallback_loop req record_count rest (py_lower kw :: seen)
      else prods

/-- `_keyword_fallback`. -/
def keyword_fallback {Raw : Type} (req : Body → List Raw)
    (base_keywords : String) (remaining : List Triple)
    (record_count : Nat := 50) : List Raw :=
  let attempts :=
    (if base_keywords ≠ "" then [base_keywords] else []) ++
    [keywords_from_values base_keywords remaining 3] ++
    (remaining.take 3).map (fun v => keywords_from_values base_keywords [v] 1)
  kw_fallback_loop req record_count attempts []

/-! ## Raw vendor records, `_brief_fallback` and `_normalize_products_dk` -/

/-- A JSON-ish field value of a raw Digi-Key product record, as far as
`_as_text` inspects it: absent/`None`, a string, or a nested object. -/
inductive JVal where
  | null : JVal
  | str : String → JVal
  | obj : List (String × JVal) → JVal
deriving Repr

/-- Python truthiness of a `JVal` (used for the `or`-chains over raw fields). -/
def jval_truthy : JVal → Bool
  | .null => false
  | .str s => s ≠ ""
  | .obj es => !es.isEmpty

/-- Python `a or b` on raw field values. -/
def jval_or (a b : JVal) : JVal := if jval_truthy a then a else b

/-- Lookup in a JSON object (`dict.get`, absent key gives `null`). -/
def jget (es : List (String × JVal)) (k : String) : JVal :=
  match es.find? (fun kv => kv.1 = k) with
  | some kv => kv.2
  | none => .null

/-- `_as_text`: `None` becomes `""`, strings pass through, and for objects the
first of the keys `Value`/`value`/`Text`/`text`/`Name`/`name`/`Url`/`URL`
holding a non-blank string wins.  The final `str(v)` fallback for objects with
no usable text key is modelled as `""`; no theorem below depends on it. -/
def as_text (v : JVal) : String :=
  match v with
  | .null => ""
  | .str s => s
  | .obj es =>
    let keys := ["Value", "value", "Text", "text", "Name", "name", "Url", "URL"]
    let hit := keys.filterMap fun k =>
      match jget es k with
      | .str s => if py_strip s ≠ "" then some s else none
      | _ => none
    match hit with
    | s :: _ => s
    | [] => ""

/-- A raw Digi-Key product record, restricted to the keys `_brief_fallback`
reads.  An absent key is `.null`. -/
structure RawProduct where
  manufacturerPartNumber : JVal := .null
  manufacturer : JVal := .null
  productUrl : JVal := .null
  productDetailUrl : JVal := .null
  detailedDescription : JVal := .null
  productDescription : JVal := .null
  shortDescription : JVal := .null
  productStatus : JVal := .null
  availability : JVal := .null
  quantityAvailable : JVal := .null
  stock : JVal := .null
  datasheetUrl : JVal := .null
deriving Repr

/-- A normalized candidate record (the dictionaries produced by
`_brief_fallback` or by the external `API.digikey` normalizer, as later read
and mutated by `find_replacements_for_mpn` and `_enrich`).  `none` on an
optional field means the key is absent.  The numeric `score`/`price` fields
are never read by the code under test and are omitted. -/
structure Product where
  mpn : Option String := none
  manufacturer : Option String := none
  product_url : Option String := none
  description : Option String := none
  lifecycle : Option String := none
  availability : Option String := none
  datasheet_url : Option String := none
  match_reasons : Option (List String) := none
  attributes : List (String × String) := []
  parameters : Option (List Triple) := none
  dk_part : Option String := none
  mouser_part : Option String := none
deriving DecidableEq, Repr

/-- `_brief_fallback`: the in-repository minimal normalization. -/
def brief_fallback (p : RawProduct) : Product :=
  let mpn := py_upper (py_strip (as_text p.manufacturerPartNumber))
  let manu := py_strip (as_text p.manufacturer)
  let url := py_strip (as_text (jval_or p.productUrl p.productDetailUrl))
  let desc := py_strip (as_text (jval_or p.detailedDescription
    (jval_or p.productDescription p.shortDescription)))
  let status := py_strip (as_text p.productStatus)
  let avail := py_strip (as_text (jval_or p.availability
    (jval_or p.quantityAvailable p.stock)))
  { mpn := some mpn,
    manufacturer := some manu,
    product_url := some url,
    description := some desc,
    lifecycle := if status = "" then none else some status,
    availability := if avail = "" then none else some avail,
    datasheet_url := some (py_strip (as_text p.datasheetUrl)),
    match_reasons := some [],
    attributes := [] }

/-- `_normalize_products_dk`.  `dk_norm` models the optional external
`API.digikey.normalize_digikey_result` (`none` when the import failed); an
inner `none` models the normalizer raising, which falls back to
`_brief_fallback`. -/
def normalize_products_dk (dk_norm : Option (RawProduct → Option Product))
    (items : List RawProduct) : List Product :=
  items.map fun p =>
    match dk_norm with
    | some f => (f p).getD (brief_fallback p)
    | none => brief_fallback p

/-! ## The base record and `_pick_base_keywords` -/

/-- The dictionary returned by the external `fetch_attributes_for_mpn`
oracle (`{}` on failure is the record with all defaults), restricted to the
keys the module reads.  The alternate key casings (`Category`, `Family`,
`product_family`) are collapsed into the canonical fields. -/
structure Base where
  ranked_parameters : List RankedParam := []
  attributes : List (String × String) := []
  category : Option String := none
  family : Option String := none
  product_family : Option String := none
  description : Option String := none
  product_url : Option String := none
  dk_part : Option String := none
  mouser_part : Option String := none
deriving DecidableEq, Repr

/-- The `or`-chain over optional strings used in `_pick_base_keywords`. -/
def first_truthy : List (Option String) → String
  | [] => ""
  | o :: rest => if truthy_str o then o.getD "" else first_truthy rest

/-- `_pick_base_keywords`. -/
def pick_base_keywords (base : Base) : String :=
  let cand := first_truthy [base.category, base.family, base.product_family]
  let s := py_strip cand
  if s = "" then
    let desc := py_lower (base.description.getD "")
    if str_contains desc "fan" then
      if str_contains desc "dc" then "DC Fans" else "Fans"
    else ""
  else
    let low := py_lower s
    if str_contains low "fan" && str_contains low "dc" then "DC Fans"
    else if str_contains low "fan" then "Fans"
    else s

/-! ## Enrichment (`_mpn_variants`, `_enrich`) -/

/-- The dash-class characters of `DASHES_RX` (ASCII hyphen plus the Unicode
dash variants U+2010–U+2015 and U+2212). -/
def is_dash (c : Char) : Bool :=
  c = '-' || c = '‐' || c = '‑' || c = '‒' || c = '–' ||
  c = '—' || c = '―' || c = '−'

/-- Replace each maximal dash run by a single space (`DASHES_RX.sub(" ", s)`,
where the regex matches one or more dash characters). -/
def dash_runs_to_space_aux : List Char → Bool → List Char
  | [], _ => []
  | c :: rest, inRun =>
    if is_dash c then
      if inRun then dash_runs_to_space_aux rest true
      else ' ' :: dash_runs_to_space_aux rest true
    else c :: dash_runs_to_space_aux rest false

/-- `DASHES_RX.sub(" ", s)`. -/
def dash_runs_to_space (s : String) : String := ⟨dash_runs_to_space_aux s.data false⟩

/-- Worker for `re.sub(r"\s{2,}", " ", s)`.  The state records a pending
whitespace run: `pending` is its first character (`none` when not inside a
run) and `many` whether the run has length at least two; on leaving a run it
is emitted as a single `' '` when `many`, else as the original character. -/
def collapse_multi_ws_aux : List Char → Option Char → Bool → List Char
  | [], none, _ => []
  | [], some c, many => if many then [' '] else [c]
  | x :: rest, none, _ =>
    if py_is_space x then collapse_multi_ws_aux rest (some x) false
    else x :: collapse_multi_ws_aux rest none false
  | x :: rest, some c, many =>
    if py_is_space x then collapse_multi_ws_aux rest (some c) true
    else (if many then [' '] else [c]) ++ x :: collapse_multi_ws_aux rest none false

/-- `re.sub(r"\s{2,}", " ", s)`: whitespace runs of length at least two are
collapsed to a single space; a lone whitespace character is kept as is. -/
def collapse_multi_ws (s : String) : String := ⟨collapse_multi_ws_aux s.data none false⟩

/-- Python `s.split()`: split on whitespace runs, discarding empties. -/
def py_split_ws (s : String) : List String :=
  ((s.data.splitOnP py_is_space).filter (fun w => !w.isEmpty)).map List.asString

/-- `_mpn_variants`.  The `unicodedata.normalize("NFC", s)` step is modelled
as the identity (it only rewrites non-NFC Unicode sequences; no theorem below
depends on it). -/
def mpn_variants (mpn_raw : String) : List String :=
  let s := py_strip mpn_raw
  if s = "" then []
  else
    let variants := [s]
    let no_dash : String := ⟨s.data.filter (fun c => !is_dash c)⟩
    let variants :=
      if no_dash ≠ "" && !variants.contains no_dash then variants ++ [no_dash]
      else variants
    let spaced := py_strip (collapse_multi_ws (dash_runs_to_space s))
    let variants :=
      if spaced ≠ "" && !variants.contains spaced then variants ++ [spaced]
      else variants
    let first_tok := (py_split_ws s).headD ""
    if first_tok ≠ "" && !variants.contains first_tok then variants ++ [first_tok]
    else variants

/-- The variant-lookup loop of `_enrich`: fetch each variant in turn, stop at
the first record carrying attributes or ranked parameters; the last fetched
record is kept even when no variant succeeds. -/
def pick_add (fetch : String → Base) : List String → Base → Base
  | [], acc => acc
  | mv :: rest, _ =>
    let add := fetch mv
    if !add.attributes.isEmpty || !add.ranked_parameters.isEmpty then add
    else pick_add fetch rest add

/-- `_enrich`: attach the attribute map and parameter rows found for the
candidate's own part number and backfill missing links.  The candidate's
`mpn` and `match_reasons` fields are never touched. -/
def enrich_product (fetch : String → Base) (p : Product) : Product :=
  let alt := py_strip (p.mpn.getD "")
  if alt = "" then p
  else
    let add := pick_add fetch (mpn_variants alt) {}
    let p := if !add.attributes.isEmpty then { p with attributes := add.attributes } else p
    let p :=
      if !add.ranked_parameters.isEmpty then
        { p with parameters := some (values_from_ranked add.ranked_parameters) }
      else p
    let p :=
      if truthy_str add.product_url && !truthy_str p.product_url then
        { p with product_url := add.product_url }
      else p
    let p :=
      if truthy_str add.dk_part && !truthy_str p.dk_part then
        { p with dk_part := add.dk_part }
      else p
    if truthy_str add.mouser_part && !truthy_str p.mouser_part then
      { p with mouser_part := add.mouser_part }
    else p

/-! ## The iterative relaxation loop and `find_replacements_for_mpn` -/

/-- One record of the `iterations` audit trail.  `used_values` carries the
projected `{name, value, id, value_id}` dictionaries, which coincide with the
triples themselves. -/
structure Iteration where
  attempt : Nat
  used_value_count : Nat
  dropped_value_count : Nat
  results : Nat
  used_values : List Triple
deriving DecidableEq, Repr

/-- The state of the relaxation loop at exit: the final `used`/`dropped`
partition, the audit trail and the surviving (filtered) product list. -/
structure LoopRes where
  used : List Triple
  dropped : List Triple
  iterations : List Iteration
  products : List Product
deriving DecidableEq, Repr

/-- The base-family filter applied after self-match exclusion
(`base_mode == "exclude_base"` / `"only_base"` / anything else). -/
def apply_base_mode (base_mode : Option String) (toks : List String)
    (ps : List Product) : List Product :=
  if base_mode = some "exclude_base" then
    ps.filter (fun p => !contains_base toks (norm_mpn p.mpn))
  else if base_mode = some "only_base" then
    ps.filter (fun p => contains_base toks (norm_mpn p.mpn))
  else ps

/-- One attempt of the loop body: parameter-filter search, keyword fallback
when it comes back empty, then normalization.  `req` is the transport oracle
and `dk_norm` the optional external normalizer. -/
def attempt_products (req : Body → List RawProduct)
    (dk_norm : Option (RawProduct → Option Product))
    (base_keywords : String) (used : List Triple) : List Product :=
  let pn := normalize_products_dk dk_norm (search_dk_with_filters req base_keywords used 50)
  if pn.isEmpty then
    normalize_products_dk dk_norm (keyword_fallback req base_keywords used 50)
  else pn

/-- The `while True` relaxation loop of `find_replacements_for_mpn`.

The Python list `used` is represented reversed (`used_rev`), so that popping
its last element is removing the head; `used_rev.reverse` is the `used` list
the source passes to the searches and records.  Each round: run the attempt,
apply the self-match filter and the base-family filter, record the iteration;
stop when products survive or results are not required, or when `used` is
empty; otherwise move the lowest-ranked element of `used` to `dropped` and
retry (the pacing `time.sleep` has no observable effect and is omitted). -/
def relax_loop (fetch : List Triple → List Product) (require_results : Bool)
    (base_mode : Option String) (orig_norm : String) (toks : List String) :
    List Triple → List Triple → List Iteration → LoopRes
  | [], dropped, iterations =>
    -- `used` is empty: whether or not products survive, the loop exits here.
    let pn := apply_base_mode base_mode toks
      ((fetch []).filter (fun p => !(norm_mpn p.mpn == orig_norm)))
    let iterations := iterations ++
      [{ attempt := iterations.length + 1, used_value_count := 0,
         dropped_value_count := dropped.length, results := pn.length,
         used_values := [] }]
    { used := [], dropped := dropped, iterations := iterations, products := pn }
  | t :: rest, dropped, iterations =>
    let used := (t :: rest).reverse
    let pn := apply_base_mode base_mode toks
      ((fetch used).filter (fun p => !(norm_mpn p.mpn == orig_norm)))
    let iterations := iterations ++
      [{ attempt := iterations.length + 1, used_value_count := used.length,
         dropped_value_count := dropped.length, results := pn.length,
         used_values := used }]
    if !pn.isEmpty || !require_results then
      { used := used, dropped := dropped, iterations := iterations, products := pn }
    else
      relax_loop fetch require_results base_mode orig_norm toks
        rest (dropped ++ [t]) iterations

/-- The ranked parameter list used by `find_replacements_for_mpn`: the
extractor's `ranked_parameters`, or rows synthesized from the attribute map
when it is empty. -/
def ranked_of (base : Base) : List RankedParam :=
  let ranked := base.ranked_parameters
  if ranked = [] then
    base.attributes.map fun kv =>
      { id := some ("attr:" ++ kv.1), name := some kv.1, value := some kv.2 }
  else ranked

/-- The usable parameter triples of a base record. -/
def triples_of (base : Base) : List Triple := values_from_ranked (ranked_of base)

/-- The `match_reasons` strings computed from the final `used` list:
`f"{t['name']} = {t['value']}" for t in used[:6]`. -/
def match_reasons_strings (used : List Triple) : List String :=
  (used.take 6).map fun t => t.name ++ " = " ++ t.value

/-- The `p.setdefault("match_reasons", match_reasons)` pass over
`products_norm[:10]`: among the first ten products, those without a
`match_reasons` key receive the computed list; all others are unchanged. -/
def attach_match_reasons (reasons : List String) (ps : List Product) : List Product :=
  (ps.take 10).map
    (fun p => if p.match_reasons.isSome then p
              else { p with match_reasons := some reasons }) ++
  ps.drop 10

/-- The result dictionary of `find_replacements_for_mpn`.  The two error
returns carry only `ok` and `error` in the source; the remaining fields then
hold the listed defaults here. -/
structure ReplResult where
  ok : Bool
  error : Option String := none
  iterations : List Iteration := []
  used_parameters : List Triple := []
  dropped_parameters : List Triple := []
  products : List Product := []
  base : Option Base := none
  note : Option String := none
  base_mode : Option String := none
  base_tokens : List String := []
deriving DecidableEq, Repr

/-- Instrumentation recording which external systems a run contacted:
the attribute extractor (`fetch_attributes_for_mpn`, which itself consults
the ranking oracle), the Digi-Key token helper, and whether any search
attempt (hence any search request) was performed. -/
structure Effects where
  attr_contacted : Bool
  token_contacted : Bool
  search_attempted : Bool
deriving DecidableEq, Repr

/-- `find_replacements_for_mpn`.  Oracle arguments: `attrs` is
`fetch_attributes_for_mpn` (used both for the original part and by the
enrichment pool), `token` the result of `_get_digikey_token`, `req` the
search transport, `dk_norm` the optional external product normalizer.
The concurrent enrichment pool mutates disjoint candidates and is joined
before returning, so its outcome is the in-place map of `_enrich` over the
surviving products. -/
def find_replacements_for_mpn (attrs : String → Base) (token : Option String)
    (req : Body → List RawProduct) (dk_norm : Option (RawProduct → Option Product))
    (mpn : String) (require_results : Bool := true)
    (base_mode : Option String := none) : ReplResult × Effects :=
  let mpn := py_strip mpn
  if mpn = "" then
    ({ ok := false, error := some "missing mpn" },
     { attr_contacted := false, token_contacted := false, search_attempted := false })
  else
    let base := attrs mpn
    let triples := triples_of base
    let base_keywords := pick_base_keywords base
    if triples = [] then
      ({ ok := true, iterations := [], used_parameters := [],
         dropped_parameters := [], products := [], base := some base,
         note := some "No usable parameter values available for filtering.",
         base_mode := base_mode, base_tokens := base_tokens mpn },
       { attr_contacted := true, token_contacted := false, search_attempted := false })
    else if !truthy_str token then
      ({ ok := false, error := some "Digi-Key token not available; check DIGIKEY_* envs." },
       { attr_contacted := true, token_contacted := true, search_attempted := false })
    else
      let orig_norm := norm_mpn (some mpn)
      let toks := base_tokens mpn
      let lr := relax_loop (attempt_products req dk_norm base_keywords)
        require_results base_mode orig_norm toks triples.reverse [] []
      let reasons := match_reasons_strings lr.used
      let prods := attach_match_reasons reasons lr.products
      let prods := prods.map (enrich_product attrs)
      ({ ok := true, iterations := lr.iterations, used_parameters := lr.used,
         dropped_parameters := lr.dropped, products := prods,
         base := some base, base_mode := base_mode, base_tokens := toks },
       { attr_contacted := true, token_contacted := true, search_attempted := true })

/-! ## `EOL/rank_params.py`: `rank_parameter_ids` -/

/-- An input parameter row `{id, name, value}` of `rank_parameter_ids`.
`id` is `none` when the key is absent or `None` (the `if pid is None`
check); present identifiers are carried in their `str()` form. -/
structure RankParam where
  id : Option String := none
  name : Option String := none
  value : Option String := none
deriving DecidableEq, Repr

/-- One row of the ranking oracle's `"ranked"` output.  `id` is `none` when
the row has no `id` key (in which case the source computes `str(None)`,
i.e. the literal string `"None"`). -/
structure RankedRow where
  id : Option String := none
  name : Option String := none
deriving DecidableEq, Repr

/-- An output row of `rank_parameter_ids`: `{"id": sid, "name", "value"}`. -/
structure RankedOut where
  id : String
  name : Option String := none
  value : Option String := none
deriving DecidableEq, Repr

/-- The `compact` list: one `(sid, name)` per input parameter whose `id` is
present, in input order (duplicated ids produce duplicated rows here). -/
def compact_of (params : List RankParam) : List (String × Option String) :=
  params.filterMap fun p => p.id.map fun pid => (pid, p.name)

/-- The `by_id` dictionary: insertion overwrites, so lookup returns the
*last* input occurrence of an id (first match on the reversed list). -/
def by_id_get (params : List RankParam) (sid : String) : Option RankParam :=
  params.reverse.find? (fun p => p.id == some sid)

/-- The completeness pass plus the identity fallback: the `ranked` rows the
oracle produced, with every `compact` row whose id the oracle omitted
appended at the end; with no oracle content at all, exactly the `compact`
rows.  (`seen_ids` is computed once from the oracle rows, so a duplicated
omitted id is appended once per occurrence.) -/
def ranked_min_of (oracle : Option (List RankedRow))
    (compact : List (String × Option String)) : List RankedRow :=
  match oracle with
  | none => compact.map fun c => { id := some c.1, name := c.2 }
  | some rows =>
    let seen := rows.map fun r => str_of_opt r.id
    rows ++ (compact.filter fun c => !seen.contains c.1).map
      (fun c => { id := some c.1, name := c.2 })

/-- The value-remapping step: keep the row's id and (truthy) name, and carry
through the original value from `by_id` (with the source's literal default
`{"id": sid, "name": row.name, "value": None}` when the id is unknown). -/
def remap_row (params : List RankParam) (row : RankedRow) : RankedOut :=
  let sid := str_of_opt row.id
  let base : RankParam := (by_id_get params sid).getD
    { id := some sid, name := row.name, value := none }
  { id := sid,
    name := if truthy_str row.name then row.name else base.name,
    value := base.value }

/-- `rank_parameter_ids`.  `api_key` models `os.getenv("OPENAI_API_KEY")`;
a missing/empty key makes `_client()` raise `RuntimeError`, modelled as
`Except.error`.  `oracle` models the text content obtained from the two
OpenAI call helpers after JSON decoding: `none` when both helpers returned
no content (unreachable service), `some rows` for a decoded `"ranked"` list
(`some []` for content that failed to parse or had no usable `"ranked"`
key).  Console preview printing is omitted. -/
def rank_parameter_ids (api_key : Option String)
    (oracle : Option (List RankedRow)) (params : List RankParam) :
    Except String (List RankedOut) :=
  if params = [] then .ok []
  else if !truthy_str api_key then .error "OPENAI_API_KEY not set."
  else
    let compact := compact_of params
    let ranked_min := ranked_min_of oracle compact
    .ok (ranked_min.map (remap_row params))

/-! ## Basic lemmas about the helpers -/

/-- Whitespace characters are not alphanumeric, even after uppercasing. -/
theorem space_not_alnum {c : Char} (h : py_is_space c = true) :
    is_ascii_alnum c.toUpper = false := by
  simp only [py_is_space, Bool.or_eq_true, decide_eq_true_eq] at h
  rcases h with ((((h | h) | h) | h) | h) | h <;> subst h <;> decide

/-- Dropping a leading whitespace run does not change the normalized form. -/
theorem filter_map_dropWhile_space (l : List Char) :
    ((l.dropWhile py_is_space).map Char.toUpper).filter is_ascii_alnum =
      (l.map Char.toUpper).filter is_ascii_alnum := by
  induction l with
  | nil => rfl
  | cons c rest ih =>
    by_cases hc : py_is_space c = true
    · rw [List.dropWhile_cons, if_pos hc, ih]
      simp [List.filter_cons, space_not_alnum hc]
    · rw [List.dropWhile_cons, if_neg hc]

/-- `_norm_mpn` is unaffected by Python `strip()` on its argument. -/
theorem norm_mpn_py_strip (s : String) :
    norm_mpn (some (py_strip s)) = norm_mpn (some s) := by
  show String.mk _ = String.mk _
  simp only [norm_mpn, py_strip, Option.getD_some]
  congr 1
  rw [List.map_reverse, List.filter_reverse, filter_map_dropWhile_space,
    List.map_reverse, List.filter_reverse, List.reverse_reverse,
    filter_map_dropWhile_space]

/-- `_base_tokens` is unaffected by Python `strip()` on its argument. -/
theorem base_tokens_py_strip (s : String) :
    base_tokens (py_strip s) = base_tokens s := by
  unfold base_tokens
  rw [norm_mpn_py_strip]

/-- Enrichment never touches the candidate's part number. -/
theorem enrich_product_mpn (f : String → Base) (p : Product) :
    (enrich_product f p).mpn = p.mpn := by
  unfold enrich_product
  dsimp only
  split_ifs <;> rfl

/-- Enrichment never touches the candidate's `match_reasons`. -/
theorem enrich_product_match_reasons (f : String → Base) (p : Product) :
    (enrich_product f p).match_reasons = p.match_reasons := by
  unfold enrich_product
  dsimp only
  split_ifs <;> rfl

/-- Every product surviving the base-family filter was in the input list and,
in the two filtering modes, satisfies / violates base-token membership. -/
theorem mem_apply_base_mode {mode : Option String} {toks : List String}
    {ps : List Product} {p : Product} (h : p ∈ apply_base_mode mode toks ps) :
    p ∈ ps ∧
    (mode = some "exclude_base" → contains_base toks (norm_mpn p.mpn) = false) ∧
    (mode = some "only_base" → contains_base toks (norm_mpn p.mpn) = true) := by
  unfold apply_base_mode at h
  split_ifs at h with h1 h2
  · rcases List.mem_filter.mp h with ⟨hp, hb⟩
    refine ⟨hp, fun _ => by simpa using hb, fun honly => ?_⟩
    rw [h1] at honly; simp at honly
  · rcases List.mem_filter.mp h with ⟨hp, hb⟩
    refine ⟨hp, fun hexc => ?_, fun _ => hb⟩
    rw [h2] at hexc; simp at hexc
  · exact ⟨h, fun hexc => absurd hexc h1, fun honly => absurd honly h2⟩

/-- In `none` mode (indeed in any unrecognized mode) the base-family filter
is the identity: no candidate is removed on the basis of base tokens. -/
theorem apply_base_mode_none (toks : List String) (ps : List Product) :
    apply_base_mode none toks ps = ps := by
  simp [apply_base_mode]

/-! ## Invariants of the relaxation loop -/

/-- The per-attempt post-filtering pipeline: self-match exclusion followed by
the base-family filter (this is the value bound to `products_norm` after the
two filter passes of the loop body). -/
def post_filters (base_mode : Option String) (orig_norm : String)
    (toks : List String) (ps : List Product) : List Product :=
  apply_base_mode base_mode toks (ps.filter (fun p => !(norm_mpn p.mpn == orig_norm)))

/-- Membership in a post-filtered list gives the three filter guarantees. -/
theorem mem_post_filters {mode : Option String} {orig : String}
    {toks : List String} {ps : List Product} {p : Product}
    (h : p ∈ post_filters mode orig toks ps) :
    norm_mpn p.mpn ≠ orig ∧
    (mode = some "exclude_base" → contains_base toks (norm_mpn p.mpn) = false) ∧
    (mode = some "only_base" → contains_base toks (norm_mpn p.mpn) = true) := by
  obtain ⟨hmem, hexc, honly⟩ := mem_apply_base_mode h
  refine ⟨?_, hexc, honly⟩
  have := (List.mem_filter.mp hmem).2
  simpa using this

/-- The products returned by the relaxation loop are exactly a post-filtered
attempt result, so they satisfy all three filter guarantees. -/
theorem relax_loop_products_filtered (fetch : List Triple → List Product)
    (rr : Bool) (mode : Option String) (orig : String) (toks : List String) :
    ∀ (ur dropped : List Triple) (its : List Iteration),
      ∀ p ∈ (relax_loop fetch rr mode orig toks ur dropped its).products,
        norm_mpn p.mpn ≠ orig ∧
        (mode = some "exclude_base" → contains_base toks (norm_mpn p.mpn) = false) ∧
        (mode = some "only_base" → contains_base toks (norm_mpn p.mpn) = true) := by
  intro ur
  induction ur with
  | nil =>
    intro dropped its p hp
    exact @mem_post_filters mode _ _ _ p (by simpa [relax_loop, post_filters] using hp)
  | cons t rest ih =>
    intro dropped its p hp
    rw [relax_loop] at hp
    split_ifs at hp with hbr
    · exact @mem_post_filters mode _ _ _ p (by simpa [post_filters] using hp)
    · exact ih _ _ p hp

/-- The audit trail grows by exactly one record per attempt and the loop makes
at most one attempt more than there are parameters to drop. -/
theorem relax_loop_iterations_le (fetch : List Triple → List Product)
    (rr : Bool) (mode : Option String) (orig : String) (toks : List String) :
    ∀ (ur dropped : List Triple) (its : List Iteration),
      (relax_loop fetch rr mode orig toks ur dropped its).iterations.length ≤
        its.length + ur.length + 1 := by
  intro ur
  induction ur with
  | nil =>
    intro dropped its
    simp [relax_loop]
  | cons t rest ih =>
    intro dropped its
    rw [relax_loop]
    split_ifs with hbr
    · simp
    · calc (relax_loop fetch rr mode orig toks rest (dropped ++ [t]) _).iterations.length
          ≤ _ + rest.length + 1 := ih _ _
        _ ≤ its.length + (t :: rest).length + 1 := by simp; omega

/-- The final `used`/`dropped` partition reassembles the initial ranked list:
`used ++ dropped.reverse` is invariant across the loop. -/
theorem relax_loop_partition (fetch : List Triple → List Product)
    (rr : Bool) (mode : Option String) (orig : String) (toks : List String) :
    ∀ (ur dropped : List Triple) (its : List Iteration),
      (relax_loop fetch rr mode orig toks ur dropped its).used ++
        (relax_loop fetch rr mode orig toks ur dropped its).dropped.reverse =
      ur.reverse ++ dropped.reverse := by
  intro ur
  induction ur with
  | nil =>
    intro dropped its
    simp [relax_loop]
  | cons t rest ih =>
    intro dropped its
    rw [relax_loop]
    split_ifs with hbr
    · rfl
    · rw [ih]
      simp

/-- When results are required and the loop ends with no products, every
parameter was dropped (`EXHAUSTED`). -/
theorem relax_loop_exhausted (fetch : List Triple → List Product)
    (mode : Option String) (orig : String) (toks : List String) :
    ∀ (ur dropped : List Triple) (its : List Iteration),
      (relax_loop fetch true mode orig toks ur dropped its).products = [] →
      (relax_loop fetch true mode orig toks ur dropped its).used = [] := by
  intro ur
  induction ur with
  | nil => intro dropped its _; simp [relax_loop]
  | cons t rest ih =>
    intro dropped its hp
    rw [relax_loop] at hp ⊢
    split_ifs at hp ⊢ with hbr
    · simp only [Bool.not_true, Bool.or_false, Bool.not_eq_true',
        List.isEmpty_eq_false] at hbr
      exact absurd hp hbr
    · exact ih _ _ hp

/-- The relation between consecutive audit records: the later attempt's
`used_values` is the earlier one's with its tail (lowest-ranked) element
removed — in particular exactly one element smaller. -/
def iter_step (a b : Iteration) : Prop :=
  a.used_values ≠ [] ∧ b.used_values = a.used_values.dropLast

/-- The loop preserves consecutive-record chaining: if the accumulated trail
is chained and its last record links to the incoming `used` list, the whole
returned trail is chained. -/
theorem relax_loop_chain (fetch : List Triple → List Product) (rr : Bool)
    (mode : Option String) (orig : String) (toks : List String) :
    ∀ (ur dropped : List Triple) (its : List Iteration),
      List.Chain' iter_step its →
      (∀ x ∈ its.getLast?, x.used_values ≠ [] ∧ ur.reverse = x.used_values.dropLast) →
      List.Chain' iter_step
        (relax_loop fetch rr mode orig toks ur dropped its).iterations := by
  intro ur
  induction ur with
  | nil =>
    intro dropped its hchain hlink
    rw [relax_loop]
    refine List.chain'_append.mpr ⟨hchain, List.chain'_singleton _, ?_⟩
    intro x hx y hy
    rw [List.head?_cons, Option.mem_def, Option.some_inj] at hy
    obtain ⟨hne, heq⟩ := hlink x hx
    exact ⟨hne, by rw [← hy]; simpa using heq⟩
  | cons t rest ih =>
    intro dropped its hchain hlink
    rw [relax_loop]
    have hchain2 : List.Chain' iter_step (its ++
        [{ attempt := its.length + 1, used_value_count := (t :: rest).reverse.length,
           dropped_value_count := dropped.length,
           results := (apply_base_mode mode toks
             ((fetch (t :: rest).reverse).filter
               (fun p => !(norm_mpn p.mpn == orig)))).length,
           used_values := (t :: rest).reverse }]) := by
      refine List.chain'_append.mpr ⟨hchain, List.chain'_singleton _, ?_⟩
      intro x hx y hy
      rw [List.head?_cons, Option.mem_def, Option.some_inj] at hy
      obtain ⟨hne, heq⟩ := hlink x hx
      exact ⟨hne, by rw [← hy]; simpa using heq⟩
    split_ifs with hbr
    · exact hchain2
    · refine ih _ _ hchain2 ?_
      intro x hx
      rw [List.getLast?_concat, Option.mem_def, Option.some_inj] at hx
      subst hx
      constructor
      · simp
      · show rest.reverse = ((t :: rest).reverse).dropLast
        rw [List.reverse_cons, List.dropLast_concat]

/-- Attaching match reasons keeps every product's part number (and its
membership origin). -/
theorem mem_attach_match_reasons {rs : List String} {ps : List Product}
    {q : Product} (h : q ∈ attach_match_reasons rs ps) :
    ∃ q0 ∈ ps, q.mpn = q0.mpn := by
  unfold attach_match_reasons at h
  rcases List.mem_append.mp h with h | h
  · obtain ⟨q0, hq0, hmap⟩ := List.mem_map.mp h
    refine ⟨q0, List.mem_of_mem_take hq0, ?_⟩
    rw [← hmap]
    split_ifs <;> rfl
  · exact ⟨q, List.mem_of_mem_drop h, rfl⟩

/-- Every product in the final result list keeps the part number of some
product the relaxation loop returned. -/
theorem mem_final_products {attrs : String → Base} {rs : List String}
    {ps : List Product} {p : Product}
    (hp : p ∈ (attach_match_reasons rs ps).map (enrich_product attrs)) :
    ∃ q0 ∈ ps, p.mpn = q0.mpn := by
  obtain ⟨q, hq, hqe⟩ := List.mem_map.mp hp
  obtain ⟨q0, hq0, hmpn⟩ := mem_attach_match_reasons hq
  exact ⟨q0, hq0, by rw [← hqe, enrich_product_mpn, hmpn]⟩

/-- C1.  For every search via `find_replacements_for_mpn` and under every
family mode, no candidate in the returned products list has a normalized part
number (uppercase alphanumerics only) equal to the normalized original part
number. -/
theorem claim_C1_self_exclusion (attrs : String → Base) (token : Option String)
    (req : Body → List RawProduct) (dk_norm : Option (RawProduct → Option Product))
    (mpn : String) (require_results : Bool) (base_mode : Option String)
    (p : Product)
    (hp : p ∈ (find_replacements_for_mpn attrs token req dk_norm mpn
      require_results base_mode).1.products) :
    norm_mpn p.mpn ≠ norm_mpn (some mpn) := by
  by_cases h1 : py_strip mpn = ""
  · simp [find_replacements_for_mpn, h1] at hp
  · by_cases h2 : triples_of (attrs (py_strip mpn)) = []
    · simp [find_replacements_for_mpn, h1, h2] at hp
    · by_cases h3 : truthy_str token = true
      · rw [find_replacements_for_mpn, if_neg h1] at hp
        rw [if_neg h2, h3] at hp
        simp only [Bool.not_true, Bool.false_eq_true, if_false] at hp
        obtain ⟨q0, hq0, hmpn⟩ := mem_final_products hp
        have := (relax_loop_products_filtered _ require_results base_mode _ _ _ _ _ q0 hq0).1
        rw [hmpn, ← norm_mpn_py_strip mpn]
        exact this
      · rw [Bool.not_eq_true] at h3
        simp [find_replacements_for_mpn, h1, h2, h3] at hp

/-- The value of `find_replacements_for_mpn` on its main path (non-blank part
number, usable parameters, token available). -/
theorem find_replacements_main_eq (attrs : String → Base) (token : Option String)
    (req : Body → List RawProduct) (dk_norm : Option (RawProduct → Option Product))
    (mpn : String) (require_results : Bool) (base_mode : Option String)
    (h1 : py_strip mpn ≠ "") (h2 : triples_of (attrs (py_strip mpn)) ≠ [])
    (h3 : truthy_str token = true) :
    find_replacements_for_mpn attrs token req dk_norm mpn require_results base_mode =
      (let lr := relax_loop
          (attempt_products req dk_norm (pick_base_keywords (attrs (py_strip mpn))))
          require_results base_mode (norm_mpn (some (py_strip mpn)))
          (base_tokens (py_strip mpn)) (triples_of (attrs (py_strip mpn))).reverse [] []
       ({ ok := true, iterations := lr.iterations, used_parameters := lr.used,
          dropped_parameters := lr.dropped,
          products := (attach_match_reasons (match_reasons_strings lr.used)
            lr.products).map (enrich_product attrs),
          base := some (attrs (py_strip mpn)), base_mode := base_mode,
          base_tokens := base_tokens (py_strip mpn) },
        { attr_contacted := true, token_contacted := true, search_attempted := true })) := by
  rw [find_replacements_for_mpn, if_neg h1]
  rw [if_neg h2, h3]
  simp only [Bool.not_true, Bool.false_eq_true, if_false]

/-- When the final (enriched) product list of the main path is empty, so was
the loop's own product list. -/
theorem attach_enrich_nil {attrs : String → Base} {rs : List String}
    {ps : List Product}
    (h : (attach_match_reasons rs ps).map (enrich_product attrs) = []) :
    ps = [] := by
  rw [List.map_eq_nil_iff] at h
  unfold attach_match_reasons at h
  rcases List.append_eq_nil.mp h with ⟨hl, hr⟩
  rw [List.map_eq_nil_iff] at hl
  have h0 := List.take_append_drop 10 ps
  rw [hl, hr] at h0
  exact h0.symm

/-- C2.  For every search whose usable (non-placeholder) parameter list has
`N ≥ 1` elements, the relaxation controller terminates reaching `FOUND` or
`EXHAUSTED` in at most `N + 1` attempts: the returned iterations list has
length at most `N + 1` (and, when results were required but none survived,
every parameter was dropped — the `EXHAUSTED` terminal state). -/
theorem claim_C2_termination (attrs : String → Base) (token : Option String)
    (req : Body → List RawProduct) (dk_norm : Option (RawProduct → Option Product))
    (mpn : String) (require_results : Bool) (base_mode : Option String)
    (hN : 1 ≤ (triples_of (attrs (py_strip mpn))).length) :
    (find_replacements_for_mpn attrs token req dk_norm mpn
        require_results base_mode).1.iterations.length ≤
      (triples_of (attrs (py_strip mpn))).length + 1 ∧
    (require_results = true →
      (find_replacements_for_mpn attrs token req dk_norm mpn
        require_results base_mode).1.products = [] →
      (find_replacements_for_mpn attrs token req dk_norm mpn
        require_results base_mode).1.used_parameters = []) := by
  by_cases h1 : py_strip mpn = ""
  · constructor
    · simp [find_replacements_for_mpn, h1]
    · intro _ _; simp [find_replacements_for_mpn, h1]
  · by_cases h2 : triples_of (attrs (py_strip mpn)) = []
    · rw [h2] at hN; simp at hN
    · by_cases h3 : truthy_str token = true
      · rw [find_replacements_main_eq attrs token req dk_norm mpn
          require_results base_mode h1 h2 h3]
        constructor
        · have := relax_loop_iterations_le
            (attempt_products req dk_norm (pick_base_keywords (attrs (py_strip mpn))))
            require_results base_mode (norm_mpn (some (py_strip mpn)))
            (base_tokens (py_strip mpn)) (triples_of (attrs (py_strip mpn))).reverse [] []
          simpa using this
        · intro hrr hprod
          subst hrr
          dsimp only at hprod ⊢
          apply relax_loop_exhausted
          exact attach_enrich_nil hprod
      · rw [Bool.not_eq_true] at h3
        constructor
        · simp [find_replacements_for_mpn, h1, h2, h3]
        · intro _ _; simp [find_replacements_for_mpn, h1, h2, h3]

/-- C4.  In `exclude_base` mode no returned candidate's normalized part
number contains any base token of the original part number; in `only_base`
mode every returned candidate's does; and in `none` mode the base-family
filter removes nothing (it is the identity on the candidate list). -/
theorem claim_C4_family_filter (attrs : String → Base) (token : Option String)
    (req : Body → List RawProduct) (dk_norm : Option (RawProduct → Option Product))
    (mpn : String) (require_results : Bool) :
    (∀ p ∈ (find_replacements_for_mpn attrs token req dk_norm mpn
        require_results (some "exclude_base")).1.products,
      contains_base (base_tokens mpn) (norm_mpn p.mpn) = false) ∧
    (∀ p ∈ (find_replacements_for_mpn attrs token req dk_norm mpn
        require_results (some "only_base")).1.products,
      contains_base (base_tokens mpn) (norm_mpn p.mpn) = true) ∧
    (∀ (toks : List String) (ps : List Product), apply_base_mode none toks ps = ps) := by
  refine ⟨?_, ?_, apply_base_mode_none⟩
  · intro p hp
    by_cases h1 : py_strip mpn = ""
    · simp [find_replacements_for_mpn, h1] at hp
    · by_cases h2 : triples_of (attrs (py_strip mpn)) = []
      · simp [find_replacements_for_mpn, h1, h2] at hp
      · by_cases h3 : truthy_str token = true
        · rw [find_replacements_main_eq attrs token req dk_norm mpn
            require_results (some "exclude_base") h1 h2 h3] at hp
          obtain ⟨q0, hq0, hmpn⟩ := mem_final_products hp
          have := (relax_loop_products_filtered _ require_results (some "exclude_base")
            _ _ _ _ _ q0 hq0).2.1 rfl
          rw [hmpn, ← base_tokens_py_strip mpn]
          exact this
        · rw [Bool.not_eq_true] at h3
          simp [find_replacements_for_mpn, h1, h2, h3] at hp
  · intro p hp
    by_cases h1 : py_strip mpn = ""
    · simp [find_replacements_for_mpn, h1] at hp
    · by_cases h2 : triples_of (attrs (py_strip mpn)) = []
      · simp [find_replacements_for_mpn, h1, h2] at hp
      · by_cases h3 : truthy_str token = true
        · rw [find_replacements_main_eq attrs token req dk_norm mpn
            require_results (some "only_base") h1 h2 h3] at hp
          obtain ⟨q0, hq0, hmpn⟩ := mem_final_products hp
          have := (relax_loop_products_filtered _ require_results (some "only_base")
            _ _ _ _ _ q0 hq0).2.2 rfl
          rw [hmpn, ← base_tokens_py_strip mpn]
          exact this
        · rw [Bool.not_eq_true] at h3
          simp [find_replacements_for_mpn, h1, h2, h3] at hp

/-- C3.  Across the attempts of one search, each attempt's `used` list is the
previous attempt's with its lowest-ranked (tail) element removed — hence
exactly one element smaller — and, whenever the search returns a non-error
result, `used_parameters ++ dropped_parameters.reverse` reassembles the
initial ranked triple list (so `dropped_parameters` is exactly the removed
elements in removal order, lowest-ranked first). -/
theorem claim_C3_monotonic_relaxation (attrs : String → Base)
    (token : Option String) (req : Body → List RawProduct)
    (dk_norm : Option (RawProduct → Option Product)) (mpn : String)
    (require_results : Bool) (base_mode : Option String) :
    (∀ (i : Nat) (h : i + 1 < (find_replacements_for_mpn attrs token req dk_norm
        mpn require_results base_mode).1.iterations.length),
      ((find_replacements_for_mpn attrs token req dk_norm mpn require_results
        base_mode).1.iterations.get ⟨i, Nat.lt_of_succ_lt h⟩).used_values ≠ [] ∧
      ((find_replacements_for_mpn attrs token req dk_norm mpn require_results
        base_mode).1.iterations.get ⟨i + 1, h⟩).used_values =
        ((find_replacements_for_mpn attrs token req dk_norm mpn require_results
          base_mode).1.iterations.get ⟨i, Nat.lt_of_succ_lt h⟩).used_values.dropLast) ∧
    ((find_replacements_for_mpn attrs token req dk_norm mpn require_results
        base_mode).1.ok = true →
      (find_replacements_for_mpn attrs token req dk_norm mpn require_results
          base_mode).1.used_parameters ++
        (find_replacements_for_mpn attrs token req dk_norm mpn require_results
          base_mode).1.dropped_parameters.reverse =
      triples_of (attrs (py_strip mpn))) := by
  by_cases h1 : py_strip mpn = ""
  · constructor
    · intro i h
      simp [find_replacements_for_mpn, h1] at h
    · intro hok
      simp [find_replacements_for_mpn, h1] at hok
  · by_cases h2 : triples_of (attrs (py_strip mpn)) = []
    · constructor
      · intro i h
        simp [find_replacements_for_mpn, h1, h2] at h
      · intro _
        simp [find_replacements_for_mpn, h1, h2]
    · by_cases h3 : truthy_str token = true
      · rw [find_replacements_main_eq attrs token req dk_norm mpn
          require_results base_mode h1 h2 h3]
        constructor
        · intro i h
          have hc := relax_loop_chain
            (attempt_products req dk_norm (pick_base_keywords (attrs (py_strip mpn))))
            require_results base_mode (norm_mpn (some (py_strip mpn)))
            (base_tokens (py_strip mpn)) (triples_of (attrs (py_strip mpn))).reverse
            [] [] List.chain'_nil (by simp)
          rw [List.chain'_iff_get] at hc
          exact hc i (by dsimp only at h ⊢; omega)
        · intro _
          have hpart := relax_loop_partition
            (attempt_products req dk_norm (pick_base_keywords (attrs (py_strip mpn))))
            require_results base_mode (norm_mpn (some (py_strip mpn)))
            (base_tokens (py_strip mpn)) (triples_of (attrs (py_strip mpn))).reverse [] []
          dsimp only
          rw [hpart]
          simp
      · rw [Bool.not_eq_true] at h3
        constructor
        · intro i h
          simp [find_replacements_for_mpn, h1, h2, h3] at h
        · intro hok
          simp [find_replacements_for_mpn, h1, h2, h3] at hok

/-- Elementwise description of the `setdefault` pass: position `i` of the
products list is updated with the computed reasons exactly when `i < 10` and
the candidate carries no `match_reasons` key; all other positions are
unchanged. -/
theorem attach_match_reasons_getElem (rs : List String) (ps : List Product)
    (i : Nat) :
    (attach_match_reasons rs ps)[i]? = (ps[i]?).map (fun q =>
      if i < 10 ∧ q.match_reasons = none
      then { q with match_reasons := some rs } else q) := by
  unfold attach_match_reasons
  rw [List.getElem?_append]
  simp only [List.length_map, List.length_take]
  by_cases hi : i < 10
  · by_cases hip : i < ps.length
    · rw [if_pos (by omega)]
      rw [List.getElem?_map, List.getElem?_take, if_pos hi]
      rw [List.getElem?_eq_getElem hip]
      cases hq : ps[i].match_reasons with
      | none => simp [hi, hq]
      | some v => simp [hi, hq]
    · rw [if_neg (by omega)]
      rw [List.getElem?_eq_none (l := ps) (by omega)]
      rw [List.getElem?_eq_none (l := List.drop 10 ps) (by simp; omega)]
      rfl
  · rw [if_neg (by omega)]
    by_cases hlen : ps.length ≤ 10
    · rw [List.drop_eq_nil_of_le hlen]
      rw [List.getElem?_eq_none (l := ps) (by omega)]
      simp
    · have hmin : (10 : Nat) ⊓ ps.length = 10 := by omega
      rw [hmin, List.getElem?_drop]
      have h10 : 10 + (i - 10) = i := by omega
      rw [h10]
      cases hq : ps[i]? with
      | none => simp
      | some q => simp [hi]

/-- C8 (corrected).  After the relaxation loop terminates, each of the first
ten surviving candidates that does not already carry a `match_reasons` key is
given the list of up to the first six `name = value` pairs from the final
`used` set; candidates already carrying the key, and all candidates past the
tenth, keep theirs unchanged (enrichment never touches `match_reasons`). -/
theorem claim_C8_match_reasons (attrs : String → Base) (token : Option String)
    (req : Body → List RawProduct) (dk_norm : Option (RawProduct → Option Product))
    (mpn : String) (require_results : Bool) (base_mode : Option String)
    (h1 : py_strip mpn ≠ "") (h2 : triples_of (attrs (py_strip mpn)) ≠ [])
    (h3 : truthy_str token = true) :
    ∀ i : Nat,
      (find_replacements_for_mpn attrs token req dk_norm mpn require_results
        base_mode).1.products[i]? =
      ((relax_loop (attempt_products req dk_norm
          (pick_base_keywords (attrs (py_strip mpn)))) require_results base_mode
          (norm_mpn (some (py_strip mpn))) (base_tokens (py_strip mpn))
          (triples_of (attrs (py_strip mpn))).reverse [] []).products[i]?).map
        (fun q => enrich_product attrs
          (if i < 10 ∧ q.match_reasons = none
           then { q with match_reasons := some (match_reasons_strings
             (relax_loop (attempt_products req dk_norm
               (pick_base_keywords (attrs (py_strip mpn)))) require_results base_mode
               (norm_mpn (some (py_strip mpn))) (base_tokens (py_strip mpn))
               (triples_of (attrs (py_strip mpn))).reverse [] []).used) }
           else q)) := by
  intro i
  rw [find_replacements_main_eq attrs token req dk_norm mpn
    require_results base_mode h1 h2 h3]
  dsimp only
  rw [List.getElem?_map, attach_match_reasons_getElem, Option.map_map]
  rfl

/-- A string consisting only of whitespace strips to the empty string. -/
theorem py_strip_all_space {mpn : String}
    (h : ∀ c ∈ mpn.data, py_is_space c = true) : py_strip mpn = "" := by
  unfold py_strip
  have h1 : mpn.data.dropWhile py_is_space = [] :=
    List.dropWhile_eq_nil_iff.mpr h
  rw [h1]
  rfl

/-- C9.  When the part has no usable parameter values, the search returns the
non-error terminal result — `ok` true, empty products, empty iterations, the
explanatory note — without fetching a catalog token and without performing
any search attempt. -/
theorem claim_C9_no_usable_parameters (attrs : String → Base)
    (token : Option String) (req : Body → List RawProduct)
    (dk_norm : Option (RawProduct → Option Product)) (mpn : String)
    (require_results : Bool) (base_mode : Option String)
    (h1 : py_strip mpn ≠ "") (h2 : triples_of (attrs (py_strip mpn)) = []) :
    (find_replacements_for_mpn attrs token req dk_norm mpn require_results
      base_mode).1.ok = true ∧
    (find_replacements_for_mpn attrs token req dk_norm mpn require_results
      base_mode).1.products = [] ∧
    (find_replacements_for_mpn attrs token req dk_norm mpn require_results
      base_mode).1.iterations = [] ∧
    (find_replacements_for_mpn attrs token req dk_norm mpn require_results
      base_mode).1.note =
      some "No usable parameter values available for filtering." ∧
    (find_replacements_for_mpn attrs token req dk_norm mpn require_results
      base_mode).2.token_contacted = false ∧
    (find_replacements_for_mpn attrs token req dk_norm mpn require_results
      base_mode).2.search_attempted = false := by
  refine ⟨?_, ?_, ?_, ?_, ?_, ?_⟩ <;>
    simp [find_replacements_for_mpn, h1, h2]

/-- C10.  For every input part number that is empty or consists only of
whitespace, the search returns `ok := false` with error `"missing mpn"`
without contacting the attribute/ranking oracle, without fetching a token and
without performing any search attempt. -/
theorem claim_C10_missing_mpn (attrs : String → Base) (token : Option String)
    (req : Body → List RawProduct) (dk_norm : Option (RawProduct → Option Product))
    (mpn : String) (require_results : Bool) (base_mode : Option String)
    (h : ∀ c ∈ mpn.data, py_is_space c = true) :
    (find_replacements_for_mpn attrs token req dk_norm mpn require_results
      base_mode).1.ok = false ∧
    (find_replacements_for_mpn attrs token req dk_norm mpn require_results
      base_mode).1.error = some "missing mpn" ∧
    (find_replacements_for_mpn attrs token req dk_norm mpn require_results
      base_mode).2.attr_contacted = false ∧
    (find_replacements_for_mpn attrs token req dk_norm mpn require_results
      base_mode).2.token_contacted = false ∧
    (find_replacements_for_mpn attrs token req dk_norm mpn require_results
      base_mode).2.search_attempted = false := by
  have h0 := py_strip_all_space h
  refine ⟨?_, ?_, ?_, ?_, ?_⟩ <;>
    simp [find_replacements_for_mpn, h0]

/-- Tier 1 is non-empty exactly when some ranked value supplies both a
parameter identifier and a value identifier. -/
theorem tier_id_valId_ne_nil_iff (ts : List Triple) :
    tier_id_valId ts ≠ [] ↔
      ∃ t ∈ ts, truthy_str t.id = true ∧ truthy_str t.value_id = true := by
  unfold tier_id_valId
  rw [Ne, List.filterMap_eq_nil_iff]
  push_neg
  constructor
  · rintro ⟨t, ht, hne⟩
    refine ⟨t, ht, ?_⟩
    by_contra hc
    apply hne
    rw [if_neg]
    intro hb
    rw [Bool.and_eq_true] at hb
    exact hc hb
  · rintro ⟨t, ht, h⟩
    exact ⟨t, ht, by rw [if_pos (by rw [Bool.and_eq_true]; exact h)]; simp⟩

/-- Tier 2 is non-empty exactly when some ranked value supplies a parameter
identifier and a (non-empty) value text. -/
theorem tier_id_valTxt_ne_nil_iff (ts : List Triple) :
    tier_id_valTxt ts ≠ [] ↔
      ∃ t ∈ ts, truthy_str t.id = true ∧ t.value ≠ "" := by
  unfold tier_id_valTxt
  rw [Ne, List.filterMap_eq_nil_iff]
  push_neg
  constructor
  · rintro ⟨t, ht, hne⟩
    refine ⟨t, ht, ?_⟩
    by_contra hc
    apply hne
    rw [if_neg]
    intro hb
    rw [Bool.and_eq_true] at hb
    exact hc ⟨hb.1, by simpa using hb.2⟩
  · rintro ⟨t, ht, h⟩
    exact ⟨t, ht, by
      rw [if_pos (by rw [Bool.and_eq_true]; exact ⟨h.1, by simpa using h.2⟩)]; simp⟩

/-- Tier 3 is non-empty exactly when some ranked value supplies a parameter
identifier and a (non-empty) raw value. -/
theorem tier_id_val_ne_nil_iff (ts : List Triple) :
    tier_id_val ts ≠ [] ↔
      ∃ t ∈ ts, truthy_str t.id = true ∧ t.value ≠ "" := by
  unfold tier_id_val
  rw [Ne, List.filterMap_eq_nil_iff]
  push_neg
  constructor
  · rintro ⟨t, ht, hne⟩
    refine ⟨t, ht, ?_⟩
    by_contra hc
    apply hne
    rw [if_neg]
    intro hb
    rw [Bool.and_eq_true] at hb
    exact hc ⟨hb.1, by simpa using hb.2⟩
  · rintro ⟨t, ht, h⟩
    exact ⟨t, ht, by
      rw [if_pos (by rw [Bool.and_eq_true]; exact ⟨h.1, by simpa using h.2⟩)]; simp⟩

/-- Tier 4 is non-empty exactly when some ranked value supplies a parameter
name and a value text. -/
theorem tier_txt_val_ne_nil_iff (ts : List Triple) :
    tier_txt_val ts ≠ [] ↔ ∃ t ∈ ts, t.name ≠ "" ∧ t.value ≠ "" := by
  unfold tier_txt_val
  rw [Ne, List.filterMap_eq_nil_iff]
  push_neg
  constructor
  · rintro ⟨t, ht, hne⟩
    refine ⟨t, ht, ?_⟩
    by_contra hc
    apply hne
    rw [if_neg]
    intro hb
    rw [Bool.and_eq_true] at hb
    exact hc ⟨by simpa using hb.1, by simpa using hb.2⟩
  · rintro ⟨t, ht, h⟩
    exact ⟨t, ht, by
      rw [if_pos (by
        rw [Bool.and_eq_true]
        exact ⟨by simpa using h.1, by simpa using h.2⟩)]; simp⟩

/-- The request loop returns the response of the first body with a non-empty
response, and the empty list when there is none. -/
theorem first_nonempty_response_eq_find {Raw : Type} (req : Body → List Raw) :
    ∀ bs : List Body,
      first_nonempty_response req bs =
        (match bs.find? (fun b => !(req b).isEmpty) with
         | some b => req b
         | none => []) := by
  intro bs
  induction bs with
  | nil => rfl
  | cons b rest ih =>
    rw [first_nonempty_response, List.find?_cons]
    cases hb : (req b).isEmpty with
    | true => simpa [hb] using ih
    | false => simp [hb]

/-- C7.  The filter cascade builds its query payloads in the fixed order
identifier+value-identifier, identifier+value-text, identifier+raw-value,
parameter-name+value-text — including a tier exactly when at least one ranked
value supplies that tier's required fields, never reordering tiers — and the
search posts those payloads in order, returning the product list of the first
tier yielding at least one product, or the empty list if no tier does. -/
theorem claim_C7_filter_cascade {Raw : Type} (req : Body → List Raw)
    (base_keywords : String) (triples : List Triple) (record_count : Nat) :
    search_dk_candidates base_keywords triples record_count =
      ((if ∃ t ∈ triples, truthy_str t.id = true ∧ truthy_str t.value_id = true then
          [{ keywords := base_keywords, recordCount := record_count,
             filters := some (tier_id_valId triples) }] else []) ++
       (if ∃ t ∈ triples, truthy_str t.id = true ∧ t.value ≠ "" then
          [{ keywords := base_keywords, recordCount := record_count,
             filters := some (tier_id_valTxt triples) }] else []) ++
       (if ∃ t ∈ triples, truthy_str t.id = true ∧ t.value ≠ "" then
          [{ keywords := base_keywords, recordCount := record_count,
             parameterValueFilters := some (tier_id_val triples) }] else []) ++
       (if ∃ t ∈ triples, t.name ≠ "" ∧ t.value ≠ "" then
          [{ keywords := base_keywords, recordCount := record_count,
             filters := some (tier_txt_val triples) }] else [])) ∧
    search_dk_with_filters req base_keywords triples record_count =
      (match (search_dk_candidates base_keywords triples record_count).find?
          (fun b => !(req b).isEmpty) with
       | some b => req b
       | none => []) := by
  constructor
  · unfold search_dk_candidates
    rw [if_congr (tier_id_valId_ne_nil_iff triples) rfl rfl,
      if_congr (tier_id_valTxt_ne_nil_iff triples) rfl rfl,
      if_congr (tier_id_val_ne_nil_iff triples) rfl rfl,
      if_congr (tier_txt_val_ne_nil_iff triples) rfl rfl]
  · rw [search_dk_with_filters, first_nonempty_response_eq_find]

/-! ## Lemmas about `rank_parameter_ids` -/

/-- When every parameter carries an id, `compact` is a straight projection of
the input list (no row is skipped). -/
theorem compact_of_eq_map {params : List RankParam}
    (hids : ∀ p ∈ params, p.id.isSome = true) :
    compact_of params = params.map (fun p => (p.id.getD "", p.name)) := by
  induction params with
  | nil => rfl
  | cons p rest ih =>
    obtain ⟨pid, hpid⟩ := Option.isSome_iff_exists.mp (hids p (List.mem_cons_self p rest))
    unfold compact_of at ih ⊢
    rw [List.filterMap_cons, List.map_cons, hpid]
    rw [ih (fun q hq => hids q (List.mem_cons_of_mem p hq))]
    simp [hpid]

/-- With pairwise-distinct present ids, `by_id` lookup of a member's id finds
exactly that member (`find?` on an id-unique list). -/
theorem find_by_id {l : List RankParam} {p : RankParam} {pid : String}
    (hnd : (l.filterMap RankParam.id).Nodup) (hp : p ∈ l)
    (hpid : p.id = some pid) :
    l.find? (fun q => q.id == some pid) = some p := by
  induction l with
  | nil => cases hp
  | cons q rest ih =>
    rw [List.find?_cons]
    by_cases hq : q.id = some pid
    · rw [show (q.id == some pid) = true from beq_iff_eq.mpr hq]
      rcases List.mem_cons.mp hp with h | h
      · rw [h]
      · exfalso
        rw [List.filterMap_cons, hq] at hnd
        rw [List.nodup_cons] at hnd
        exact hnd.1 (List.mem_filterMap.mpr ⟨p, h, hpid⟩)
    · rw [show (q.id == some pid) = false from beq_eq_false_iff_ne.mpr hq]
      have hrest : (rest.filterMap RankParam.id).Nodup := by
        rw [List.filterMap_cons] at hnd
        cases hcase : q.id with
        | none => rwa [hcase] at hnd
        | some qid => rw [hcase] at hnd; exact (List.nodup_cons.mp hnd).2
      have hp' : p ∈ rest := by
        rcases List.mem_cons.mp hp with h | h
        · exact absurd (h ▸ hpid) hq
        · exact h
      exact ih hrest hp'

/-- `by_id_get` version of the unique-lookup lemma (last occurrence equals the
only occurrence when ids are distinct). -/
theorem by_id_get_unique {params : List RankParam} {p : RankParam} {pid : String}
    (hnd : (params.filterMap RankParam.id).Nodup) (hp : p ∈ params)
    (hpid : p.id = some pid) :
    by_id_get params pid = some p := by
  unfold by_id_get
  apply find_by_id
  · rw [List.filterMap_reverse, List.nodup_reverse]
    exact hnd
  · rwa [List.mem_reverse]
  · exact hpid

/-- With pairwise-distinct present ids, remapping the oracle row of a member
parameter reattaches exactly that parameter's name and value. -/
theorem remap_row_of_member {params : List RankParam} {p : RankParam}
    {pid : String} (hnd : (params.filterMap RankParam.id).Nodup)
    (hp : p ∈ params) (hpid : p.id = some pid) :
    remap_row params { id := p.id, name := p.name } =
      { id := pid, name := p.name, value := p.value } := by
  unfold remap_row
  dsimp only
  rw [hpid]
  dsimp only [str_of_opt]
  rw [by_id_get_unique hnd hp hpid]
  by_cases hn : truthy_str p.name = true
  · simp [hn]
  · rw [Bool.not_eq_true] at hn
    simp [hn]

/-- When every parameter carries an id, projecting the stringified ids equals
`filterMap` over the ids. -/
theorem map_str_id_eq_filterMap {params : List RankParam}
    (hids : ∀ p ∈ params, p.id.isSome = true) :
    params.map (fun p => str_of_opt p.id) = params.filterMap RankParam.id := by
  induction params with
  | nil => rfl
  | cons p rest ih =>
    obtain ⟨pid, hpid⟩ := Option.isSome_iff_exists.mp (hids p (List.mem_cons_self p rest))
    rw [List.map_cons, List.filterMap_cons, hpid]
    rw [ih (fun q hq => hids q (List.mem_cons_of_mem p hq))]
    simp [str_of_opt, hpid]

/-- C6 (corrected).  When the API key is configured and every input parameter
carries a distinct id, an unreachable ranking oracle (no content) or a
malformed response (content with no parseable `ranked` list) degrades to the
identity ordering: the operation returns, without failure, exactly the input
parameters in their original order with names and values preserved.
(Parameters without an id are dropped — see C5 — and a missing API key is
surfaced as a raised `RuntimeError`, so the original claim's "never a hard
failure" does not hold in general.) -/
theorem claim_C6_fallback_corrected (api_key : Option String)
    (oracle : Option (List RankedRow)) (params : List RankParam)
    (hkey : truthy_str api_key = true)
    (hids : ∀ p ∈ params, p.id.isSome = true)
    (hnd : (params.filterMap RankParam.id).Nodup)
    (ho : oracle = none ∨ oracle = some []) :
    rank_parameter_ids api_key oracle params =
      .ok (params.map fun p =>
        { id := p.id.getD "", name := p.name, value := p.value }) := by
  by_cases hp : params = []
  · subst hp
    rcases ho with h | h <;> subst h <;> rfl
  · unfold rank_parameter_ids
    rw [if_neg hp, if_neg (by simp [hkey])]
    dsimp only
    have hmin : ranked_min_of oracle (compact_of params) =
        (compact_of params).map (fun c => { id := some c.1, name := c.2 }) := by
      rcases ho with h | h <;> subst h
      · rfl
      · simp [ranked_min_of]
    rw [hmin, compact_of_eq_map hids, List.map_map, List.map_map]
    congr 1
    apply List.map_congr_left
    intro p hp2
    obtain ⟨pid, hpid⟩ := Option.isSome_iff_exists.mp (hids p hp2)
    show remap_row params { id := some (p.id.getD ""), name := p.name } = _
    rw [show (some (p.id.getD "") : Option String) = p.id from by rw [hpid]; rfl]
    rw [remap_row_of_member hnd hp2 hpid]
    rw [hpid]
    rfl

/-- C5 (corrected).  Parameters whose id is absent are dropped (they never
reach `compact`), so the bijection holds on the id-carrying part: when every
input parameter carries an id, the ids are pairwise distinct, and the oracle
returns exactly the input `(id, name)` rows (each once, in any order), the
output has exactly one entry per input parameter — the same `(id, name)`
pairs, no duplicates, no invented entries — with that parameter's original
value reattached. -/
theorem claim_C5_bijection_corrected (api_key : Option String)
    (params : List RankParam) (rows : List RankedRow)
    (hkey : truthy_str api_key = true)
    (hids : ∀ p ∈ params, p.id.isSome = true)
    (hnd : (params.filterMap RankParam.id).Nodup)
    (hrows : rows.Perm (params.map fun p =>
      ({ id := p.id, name := p.name } : RankedRow))) :
    ∃ out, rank_parameter_ids api_key (some rows) params = .ok out ∧
      (out.map fun o => (o.id, o.name)).Perm
        (params.map fun p => (p.id.getD "", p.name)) ∧
      (out.map RankedOut.id).Nodup ∧
      ∀ o ∈ out, ∃ p ∈ params,
        p.id = some o.id ∧ o.name = p.name ∧ o.value = p.value := by
  by_cases hpnil : params = []
  · subst hpnil
    have hrnil : rows = [] := List.Perm.eq_nil (by simpa using hrows)
    subst hrnil
    exact ⟨[], rfl, by simp, by simp, by simp⟩
  · refine ⟨rows.map (remap_row params), ?_, ?_, ?_, ?_⟩
    · unfold rank_parameter_ids
      rw [if_neg hpnil, if_neg (by simp [hkey])]
      dsimp only
      have hfil : (compact_of params).filter
          (fun c => !(rows.map fun r => str_of_opt r.id).contains c.1) = [] := by
        rw [List.filter_eq_nil_iff]
        intro c hc
        rw [compact_of_eq_map hids] at hc
        obtain ⟨p, hp, hcp⟩ := List.mem_map.mp hc
        obtain ⟨pid, hpid⟩ := Option.isSome_iff_exists.mp (hids p hp)
        have hrmem : ({ id := p.id, name := p.name } : RankedRow) ∈ rows :=
          hrows.mem_iff.mpr (List.mem_map.mpr ⟨p, hp, rfl⟩)
        have hsid : c.1 ∈ rows.map (fun r => str_of_opt r.id) :=
          List.mem_map.mpr ⟨_, hrmem, by rw [← hcp]; simp [str_of_opt, hpid]⟩
        simp [hsid]
      have hmin : ranked_min_of (some rows) (compact_of params) = rows := by
        rw [ranked_min_of]
        rw [hfil]
        simp
      rw [hmin]
    · have hout_eq : (rows.map (remap_row params)).map (fun o => (o.id, o.name)) =
          rows.map (fun r => (str_of_opt r.id, r.name)) := by
        rw [List.map_map]
        apply List.map_congr_left
        intro r hr
        obtain ⟨p, hp, hmk⟩ := List.mem_map.mp (hrows.mem_iff.mp hr)
        obtain ⟨pid, hpid⟩ := Option.isSome_iff_exists.mp (hids p hp)
        dsimp only [Function.comp]
        rw [← hmk, remap_row_of_member hnd hp hpid]
        simp [str_of_opt, hpid]
      rw [hout_eq]
      have hperm := hrows.map (fun r => (str_of_opt r.id, r.name))
      have heq : (params.map fun p => ({ id := p.id, name := p.name } : RankedRow)).map
          (fun r => (str_of_opt r.id, r.name)) =
          params.map (fun p => (p.id.getD "", p.name)) := by
        rw [List.map_map]
        apply List.map_congr_left
        intro p hp
        obtain ⟨pid, hpid⟩ := Option.isSome_iff_exists.mp (hids p hp)
        simp [str_of_opt, hpid]
      rw [heq] at hperm
      exact hperm
    · have hid_eq : (rows.map (remap_row params)).map RankedOut.id =
          rows.map (fun r => str_of_opt r.id) := by
        rw [List.map_map]
        rfl
      rw [hid_eq]
      have hperm := hrows.map (fun r => str_of_opt r.id)
      have heq : (params.map fun p => ({ id := p.id, name := p.name } : RankedRow)).map
          (fun r => str_of_opt r.id) = params.filterMap RankParam.id := by
        rw [List.map_map, ← map_str_id_eq_filterMap hids]
        rfl
      rw [heq] at hperm
      exact hperm.nodup_iff.mpr hnd
    · intro o ho
      obtain ⟨r, hr, hro⟩ := List.mem_map.mp ho
      obtain ⟨p, hp, hmk⟩ := List.mem_map.mp (hrows.mem_iff.mp hr)
      obtain ⟨pid, hpid⟩ := Option.isSome_iff_exists.mp (hids p hp)
      rw [← hmk, remap_row_of_member hnd hp hpid] at hro
      refine ⟨p, hp, ?_, ?_, ?_⟩
      · rw [← hro, hpid]
      · rw [← hro]
      · rw [← hro]

/-! ## Concrete fixtures for witnesses and counterexamples -/

/-- Attribute oracle returning one usable ranked parameter. -/
def w_attrs : String → Base := fun _ =>
  { ranked_parameters :=
      [{ id := some "1", name := some "Voltage - Rated", value := some "24VDC" }] }

/-- Attribute oracle returning nothing usable. -/
def attrs_empty : String → Base := fun _ => {}

/-- Request oracle returning a single raw product for every query. -/
def w_req : Body → List RawProduct := fun _ => [{}]

/-- Request oracle returning no products for any query. -/
def w_req0 : Body → List RawProduct := fun _ => []

/-- Request oracle returning eleven raw products for every query. -/
def c8_req : Body → List RawProduct := fun _ => List.replicate 11 {}

/-- External normalizer producing a same-family candidate (`4414G`). -/
def w_norm : Option (RawProduct → Option Product) :=
  some (fun _ => some { mpn := some "4414G" })

/-- External normalizer producing an unrelated candidate (`X9`) carrying no
`match_reasons` key. -/
def x_norm : Option (RawProduct → Option Product) :=
  some (fun _ => some { mpn := some "X9" })

/-- The candidate as it appears in the final result of the `w_attrs`/`w_req`/
`w_norm` run (match reasons attached, parameters enriched). -/
def w_final : Product :=
  { mpn := some "4414G",
    match_reasons := some ["Voltage - Rated = 24VDC"],
    parameters := some [{ name := "Voltage - Rated", value := "24VDC", id := some "1" }] }

/-- The candidate as it appears in the final result of the `w_attrs`/`w_req`/
`x_norm` run. -/
def x_final : Product :=
  { mpn := some "X9",
    match_reasons := some ["Voltage - Rated = 24VDC"],
    parameters := some [{ name := "Voltage - Rated", value := "24VDC", id := some "1" }] }

/-- A two-parameter ranking input. -/
def w_params : List RankParam :=
  [{ id := some "1", name := some "Voltage - Rated", value := some "24VDC" },
   { id := some "2", name := some "Air Flow", value := some "100 CFM" }]

/-- An oracle response ranking `w_params` in reversed order. -/
def w_rows : List RankedRow :=
  [{ id := some "2", name := some "Air Flow" },
   { id := some "1", name := some "Voltage - Rated" }]

/-- Witness for C1: in a concrete run the surviving candidate `4414G` is in
the result list and its normalized part number differs from the original. -/
theorem claim_C1_witness :
    norm_mpn w_final.mpn ≠ norm_mpn (some "4414F") :=
  claim_C1_self_exclusion w_attrs (some "tok") w_req w_norm "4414F" true none
    w_final (by decide)

/-- Witness for C2: a concrete one-parameter search that exhausts its
parameters stays within the `N + 1` attempt bound and ends with every
parameter dropped. -/
theorem claim_C2_witness :
    (find_replacements_for_mpn w_attrs (some "tok") w_req0 w_norm "4414F" true
        none).1.iterations.length ≤
      (triples_of (w_attrs (py_strip "4414F"))).length + 1 ∧
    (find_replacements_for_mpn w_attrs (some "tok") w_req0 w_norm "4414F" true
        none).1.used_parameters = [] :=
  ⟨(claim_C2_termination w_attrs (some "tok") w_req0 w_norm "4414F" true none
      (by decide)).1,
   (claim_C2_termination w_attrs (some "tok") w_req0 w_norm "4414F" true none
      (by decide)).2 rfl (by decide)⟩

/-- Witness for C3: in a concrete two-attempt run, attempt 2's `used` list is
attempt 1's without its tail element, and the final partition reassembles the
initial ranked list. -/
theorem claim_C3_witness :
    (((find_replacements_for_mpn w_attrs (some "tok") w_req0 w_norm "4414F" true
        none).1.iterations.get ⟨0, by decide⟩).used_values ≠ [] ∧
     ((find_replacements_for_mpn w_attrs (some "tok") w_req0 w_norm "4414F" true
        none).1.iterations.get ⟨1, by decide⟩).used_values =
       ((find_replacements_for_mpn w_attrs (some "tok") w_req0 w_norm "4414F" true
        none).1.iterations.get ⟨0, by decide⟩).used_values.dropLast) ∧
    (find_replacements_for_mpn w_attrs (some "tok") w_req0 w_norm "4414F" true
        none).1.used_parameters ++
      (find_replacements_for_mpn w_attrs (some "tok") w_req0 w_norm "4414F" true
        none).1.dropped_parameters.reverse =
      triples_of (w_attrs (py_strip "4414F")) :=
  ⟨(claim_C3_monotonic_relaxation w_attrs (some "tok") w_req0 w_norm "4414F"
      true none).1 0 (by decide),
   (claim_C3_monotonic_relaxation w_attrs (some "tok") w_req0 w_norm "4414F"
      true none).2 (by decide)⟩

/-- Witness for C4: a same-family candidate (`4414G`, base token `4414`)
survives an `only_base` run, and an out-of-family candidate (`X9`) survives an
`exclude_base` run. -/
theorem claim_C4_witness :
    contains_base (base_tokens "4414F") (norm_mpn w_final.mpn) = true ∧
    contains_base (base_tokens "4414F") (norm_mpn x_final.mpn) = false :=
  ⟨(claim_C4_family_filter w_attrs (some "tok") w_req w_norm "4414F" true).2.1
      w_final (by decide),
   (claim_C4_family_filter w_attrs (some "tok") w_req x_norm "4414F" true).1
      x_final (by decide)⟩

/-- Counterexample for C5 as stated: a parameter whose id is absent is
dropped entirely — the output is empty although the input contains the
parameter `Voltage - Rated`, so the output `(id, name)` set does not equal
the input set. -/
theorem claim_C5_counterexample :
    rank_parameter_ids (some "key") (some [])
        [{ id := none, name := some "Voltage - Rated", value := some "24VDC" }] =
      .ok [] ∧
    ([{ id := none, name := some "Voltage - Rated", value := some "24VDC" }] :
      List RankParam) ≠ [] := by
  exact ⟨rfl, by decide⟩

/-- Witness for C5 (corrected): with both parameters carrying distinct ids
and the oracle returning them (reordered), the output is a value-preserving
bijection. -/
theorem claim_C5_witness :
    ∃ out, rank_parameter_ids (some "key") (some w_rows) w_params = .ok out ∧
      (out.map fun o => (o.id, o.name)).Perm
        (w_params.map fun p => (p.id.getD "", p.name)) ∧
      (out.map RankedOut.id).Nodup ∧
      ∀ o ∈ out, ∃ p ∈ w_params,
        p.id = some o.id ∧ o.name = p.name ∧ o.value = p.value :=
  claim_C5_bijection_corrected (some "key") w_params w_rows (by decide)
    (by decide) (by decide) (by decide)

/-- Counterexample for C6 as stated: with the API key missing, the ranking
operation raises (`RuntimeError("OPENAI_API_KEY not set.")`) instead of
degrading to the identity order — the degradation is surfaced as a hard
failure even though the oracle was never reached. -/
theorem claim_C6_counterexample :
    rank_parameter_ids none none
        [{ id := some "1", name := some "Voltage - Rated", value := some "24VDC" }] =
      .error "OPENAI_API_KEY not set." := by
  rfl

/-- Witness for C6 (corrected): with the key set and the oracle unreachable,
a two-parameter input comes back unchanged and without failure. -/
theorem claim_C6_witness :
    rank_parameter_ids (some "key") none w_params =
      .ok (w_params.map fun p =>
        { id := p.id.getD "", name := p.name, value := p.value }) :=
  claim_C6_fallback_corrected (some "key") none w_params (by decide) (by decide)
    (by decide) (Or.inl rfl)

/-- Counterexample for C8 as stated: a run surviving with eleven candidates
attaches the computed `match_reasons` to the first ten only — the eleventh
candidate still carries no match justification at all. -/
theorem claim_C8_counterexample :
    (find_replacements_for_mpn w_attrs (some "tok") c8_req x_norm "4414F" true
        none).1.products.length = 11 ∧
    ((find_replacements_for_mpn w_attrs (some "tok") c8_req x_norm "4414F" true
        none).1.products[10]?).map Product.match_reasons = some none ∧
    ((find_replacements_for_mpn w_attrs (some "tok") c8_req x_norm "4414F" true
        none).1.products[0]?).map Product.match_reasons =
      some (some ["Voltage - Rated = 24VDC"]) := by
  refine ⟨?_, ?_, ?_⟩ <;> decide

/-- Witness for C8 (corrected): the elementwise description evaluated at
position 10 of the eleven-candidate run. -/
theorem claim_C8_witness :
    (find_replacements_for_mpn w_attrs (some "tok") c8_req x_norm "4414F" true
      none).1.products[10]? =
      ((relax_loop (attempt_products c8_req x_norm
          (pick_base_keywords (w_attrs (py_strip "4414F")))) true none
          (norm_mpn (some (py_strip "4414F"))) (base_tokens (py_strip "4414F"))
          (triples_of (w_attrs (py_strip "4414F"))).reverse [] []).products[10]?).map
        (fun q => enrich_product w_attrs
          (if 10 < 10 ∧ q.match_reasons = none
           then { q with match_reasons := some (match_reasons_strings
             (relax_loop (attempt_products c8_req x_norm
               (pick_base_keywords (w_attrs (py_strip "4414F")))) true none
               (norm_mpn (some (py_strip "4414F"))) (base_tokens (py_strip "4414F"))
               (triples_of (w_attrs (py_strip "4414F"))).reverse [] []).used) }
           else q)) :=
  claim_C8_match_reasons w_attrs (some "tok") c8_req x_norm "4414F" true none
    (by decide) (by decide) (by decide) 10

/-- Witness for C9: with an attribute oracle returning nothing usable, the
search returns the explicit terminal record without token fetch or search. -/
theorem claim_C9_witness :
    (find_replacements_for_mpn attrs_empty (some "tok") w_req w_norm "4414F"
      true none).1.ok = true ∧
    (find_replacements_for_mpn attrs_empty (some "tok") w_req w_norm "4414F"
      true none).1.products = [] ∧
    (find_replacements_for_mpn attrs_empty (some "tok") w_req w_norm "4414F"
      true none).1.iterations = [] ∧
    (find_replacements_for_mpn attrs_empty (some "tok") w_req w_norm "4414F"
      true none).1.note =
      some "No usable parameter values available for filtering." ∧
    (find_replacements_for_mpn attrs_empty (some "tok") w_req w_norm "4414F"
      true none).2.token_contacted = false ∧
    (find_replacements_for_mpn attrs_empty (some "tok") w_req w_norm "4414F"
      true none).2.search_attempted = false :=
  claim_C9_no_usable_parameters attrs_empty (some "tok") w_req w_norm "4414F"
    true none (by decide) (by decide)

/-- Witness for C10: a whitespace-only part number yields the `missing mpn`
error without contacting any oracle. -/
theorem claim_C10_witness :
    (find_replacements_for_mpn w_attrs (some "tok") w_req w_norm "   " true
      none).1.ok = false ∧
    (find_replacements_for_mpn w_attrs (some "tok") w_req w_norm "   " true
      none).1.error = some "missing mpn" ∧
    (find_replacements_for_mpn w_attrs (some "tok") w_req w_norm "   " true
      none).2.attr_contacted = false ∧
    (find_replacements_for_mpn w_attrs (some "tok") w_req w_norm "   " true
      none).2.token_contacted = false ∧
    (find_replacements_for_mpn w_attrs (some "tok") w_req w_norm "   " true
      none).2.search_attempted = false :=
  claim_C10_missing_mpn w_attrs (some "tok") w_req w_norm "   " true none
    (by decide)
